import Mathlib

/-!
# Shallow embedding of the find-books-bot core

This file embeds, in Lean, the parts of the `find-books-bot` repository that
the verified properties talk about:

* `flibusta_parser.py` — the `FlibustaParser` class: `login`, `search_books`,
  `get_book_details`, `download_book`, `logout` and the `_get_user_id` helper.
  HTML documents are modelled at the level the Python code observes them
  through BeautifulSoup: anchors with an `href` attribute and a rendered text,
  list items as their anchor lists, and the few structural facts each routine
  queries (the "Найденные книги" section, the `select#useropt` element, …).
  The regular expressions the code applies to attribute values and text
  (`/b/\d+`, `/a/\d+`, `/user/\d+`, `\.(\w+)$`, `<span[^>]*>|</span>`, `\s+`,
  `/download/\w+`, `/get/\w+`, `/book/\d+/\w+`) are given executable models on
  character lists.  Network traffic is a parameter: each operation receives
  the response (status + parsed body, or a raised connection error) it would
  have obtained for the URL it builds.  Each operation also reports whether it
  executed the `asyncio.sleep(1.0)` pacing call before returning.

* `bot.py` — the in-memory Kindle send-lock dictionary
  (`is_kindle_sending_locked`, `set_kindle_sending_lock`,
  `remove_kindle_sending_lock`, `cleanup_expired_locks`) with the dictionary
  modelled as an association list from lock key to timestamp.
-/

namespace FindBooksBot

/-! ## Character-level models of the regular expressions used by the code -/

/-- Scan a character list left to right, returning the first position at which
`f` produces a value — the behaviour of `re.search` for the patterns modelled
below (each `f` used matches only at the head of its argument). -/
def searchFirst {α : Type} (f : List Char → Option α) : List Char → Option α
  | [] => f []
  | c :: cs =>
    match f (c :: cs) with
    | some r => some r
    | none => searchFirst f cs

/-- Match a literal character sequence at the head of `l`, returning the rest. -/
def matchLit : List Char → List Char → Option (List Char)
  | [], l => some l
  | _ :: _, [] => none
  | p :: ps, c :: cs => if p = c then matchLit ps cs else none

/-- Match `lit` followed by at least one digit at the head of `l`; on success
return the maximal digit run (the capture group of e.g. `/b/(\d+)`). -/
def matchIdAt (lit : List Char) (l : List Char) : Option (List Char) :=
  match matchLit lit l with
  | some rest =>
    let d := rest.takeWhile Char.isDigit
    if d.isEmpty then none else some d
  | none => none

/-- Model of `re.search(lit + r'(\d+)', s)` returning the captured digit run:
used for `/b/(\d+)`, `/a/(\d+)` and `/user/(\d+)`. -/
def findPatId (lit : String) (s : String) : Option String :=
  (searchFirst (matchIdAt lit.toList) s.toList).map List.asString

/-- Model of the membership test `re.compile(lit + r'\d+').search(s)` used as a
BeautifulSoup `href` filter. -/
def hrefHasPat (lit : String) (s : String) : Bool :=
  (findPatId lit s).isSome

/-- Python word characters (`\w`), ASCII fragment. -/
def isWordChar (c : Char) : Bool :=
  c.isAlphanum || c == '_'

/-- Match `lit` followed by at least one word character somewhere in `s`:
model of the `href` filters `re.compile(r'/download/\w+')` and
`re.compile(r'/get/\w+')`. -/
def hrefHasLitWord (lit : String) (s : String) : Bool :=
  (searchFirst
    (fun l =>
      match matchLit lit.toList l with
      | some rest => if (rest.takeWhile isWordChar).isEmpty then none else some ()
      | none => none)
    s.toList).isSome

/-- Model of the `href` filter `re.compile(r'/book/\d+/\w+')`. -/
def hrefHasBookFmt (s : String) : Bool :=
  (searchFirst
    (fun l =>
      match matchLit "/book/".toList l with
      | some rest =>
        let d := rest.takeWhile Char.isDigit
        if d.isEmpty then none
        else
          match rest.drop d.length with
          | '/' :: rest2 =>
            if (rest2.takeWhile isWordChar).isEmpty then none else some ()
          | _ => none
      | none => none)
    s.toList).isSome

/-- Model of `re.search(r'\.(\w+)$', s)`: the trailing maximal word-character
run of `s`, provided it is non-empty and preceded by a literal dot. -/
def extSuffix (s : String) : Option String :=
  let r := s.toList.reverse
  let w := r.takeWhile isWordChar
  if w.isEmpty then none
  else
    match r.drop w.length with
    | '.' :: _ => some (List.asString w.reverse)
    | _ => none

/-- Python's `str.upper()` (character-wise, as for the ASCII format tokens
this code handles). -/
def upperStr (s : String) : String :=
  List.asString (s.toList.map Char.toUpper)

/-- Python's `str.lower()`. -/
def lowerStr (s : String) : String :=
  List.asString (s.toList.map Char.toLower)

/-- Python's substring test `needle in hay`. -/
def containsSub (needle hay : String) : Bool :=
  (searchFirst
    (fun l => if needle.toList.isPrefixOf l then some () else none)
    hay.toList).isSome

/-! ## Whitespace / markup cleaning (`search_books` title clean-up) -/

/-- Consume characters up to and including the first `'>'`: the `[^>]*>` tail
of the pattern `<span[^>]*>`. -/
def consumeToGt : List Char → Option (List Char)
  | [] => none
  | c :: rest => if c = '>' then some rest else consumeToGt rest

/-- One scanning step per unit of fuel.  Each recursive call consumes at
least one character of the list, so with fuel equal to the initial length the
fuel never runs out and the function is exactly the left-to-right pass of the
regex substitution. -/
def stripSpansF : Nat → List Char → List Char
  | 0, l => l
  | fuel + 1, l =>
    match l with
    | '<' :: '/' :: 's' :: 'p' :: 'a' :: 'n' :: '>' :: rest => stripSpansF fuel rest
    | '<' :: 's' :: 'p' :: 'a' :: 'n' :: rest =>
      match consumeToGt rest with
      | some rest2 => stripSpansF fuel rest2
      | none => '<' :: stripSpansF fuel ('s' :: 'p' :: 'a' :: 'n' :: rest)
    | c :: cs => c :: stripSpansF fuel cs
    | [] => []

/-- One left-to-right pass of `re.sub(r'<span[^>]*>|</span>', '', ·)`. -/
def stripSpans (l : List Char) : List Char :=
  stripSpansF l.length l

/-- Model of `re.sub(r'\s+', ' ', ·)`: collapse every maximal whitespace run
to a single space. -/
def collapseWs : List Char → List Char
  | [] => []
  | [c] => if c.isWhitespace then [' '] else [c]
  | c :: d :: cs =>
    if c.isWhitespace then
      if d.isWhitespace then collapseWs (d :: cs)
      else ' ' :: collapseWs (d :: cs)
    else c :: collapseWs (d :: cs)

/-- Model of Python's `str.strip()`. -/
def trimList (l : List Char) : List Char :=
  ((l.dropWhile Char.isWhitespace).reverse.dropWhile Char.isWhitespace).reverse

/-- Model of BeautifulSoup's `get_text(strip=True)` for an element whose
rendered text is the single string `s`. -/
def getTextStrip (s : String) : String :=
  List.asString (trimList s.toList)

/-- The title clean-up of `search_books` (flibusta_parser.py lines 211-214):
strip highlighting `span` markup, collapse whitespace, strip the ends. -/
def cleanTitle (s : String) : String :=
  List.asString (trimList (collapseWs (stripSpans s.toList)))

/-! ## Data model: parsed HTML and parser records -/

/-- An `<a>` element as the code observes it: its `href` attribute and its
rendered text (the argument later passed through `get_text(strip=True)`). -/
structure Anchor where
  href : String
  text : String
deriving Repr, DecidableEq

/-- An `<li>` element of the results list: the anchors it contains, in
document order. -/
structure LItem where
  anchors : List Anchor
deriving Repr, DecidableEq

/-- A parsed search-results page.  `booksSection` is the result of locating an
`<h3>` containing «Найденные книги» and taking its next `<ul>` sibling
(`none` when that lookup fails); `allAnchors` is every anchor of the document
in document order, as seen by the fallback `soup.find_all('a', ...)`. -/
structure SearchPage where
  booksSection : Option (List LItem)
  allAnchors : List Anchor
deriving Repr, DecidableEq

/-- The dictionary `search_books` builds per book.  `title`, `book_url` and
`book_id` are assigned by both construction sites; the author keys are present
only when the primary path finds author anchors, hence `Option`
(`book_url` is kept `Option` as well so that an absent dict key is
representable). -/
structure BookInfo where
  title : String
  book_url : Option String := none
  book_id : String
  author : Option String := none
  author_url : Option String := none
  author_id : Option String := none
  authors : Option (List String) := none
deriving Repr, DecidableEq

/-- Shallow model of `urllib.parse.urljoin` for the href shapes this code
produces: an absolute href is kept, a site-relative one is resolved against
the base URL. -/
def urljoin (base href : String) : String :=
  if "http".toList.isPrefixOf href.toList then href else base ++ href

/-- The session state the Python object carries across calls
(`self.is_authenticated`, `self.user_id`). -/
structure ParserState where
  is_authenticated : Bool := false
  user_id : Option String := none
deriving Repr, DecidableEq

/-- A network interaction's outcome as the code distinguishes them: a response
with an HTTP status and a (parsed) body, or a raised connection error. -/
inductive Fetch (α : Type) where
  | ok (status : Nat) (body : α)
  | exn
deriving Repr, DecidableEq

/-! ## `search_books` (flibusta_parser.py lines 147-248) -/

/-- The per-item body of the primary extraction loop (lines 181-220).
`none` models both `continue` paths: no book anchor in the item, an exception
while extracting (impossible here once the anchor matched, kept for
faithfulness), or an empty cleaned title. -/
def parseItem (base : String) (item : LItem) : Option BookInfo :=
  match item.anchors.find? (fun a => hrefHasPat "/b/" a.href) with
  | none => none
  | some link =>
    match findPatId "/b/" link.href with
    | none => none
    | some bid =>
      let info : BookInfo :=
        { title := getTextStrip link.text
          book_url := some (urljoin base link.href)
          book_id := bid }
      let authorLinks := item.anchors.filter (fun a => hrefHasPat "/a/" a.href)
      let withAuthor : Option BookInfo :=
        match authorLinks with
        | [] => some info
        | al :: rest =>
          match findPatId "/a/" al.href with
          | none => none
          | some aid =>
            let info2 :=
              { info with
                  author := some (getTextStrip al.text)
                  author_url := some (urljoin base al.href)
                  author_id := some aid }
            some (if rest.isEmpty then info2
                  else { info2 with
                           authors := some ((al :: rest).map
                             (fun a => getTextStrip a.text)) })
      match withAuthor with
      | none => none
      | some info3 =>
        let t := cleanTitle info3.title
        if t = "" then none else some { info3 with title := t }

/-- The per-anchor body of the fallback loop (lines 227-238). -/
def parseFallbackAnchor (base : String) (a : Anchor) : Option BookInfo :=
  match findPatId "/b/" a.href with
  | none => none
  | some bid =>
    let t := getTextStrip a.text
    if t = "" then none
    else some { title := t, book_url := some (urljoin base a.href), book_id := bid }

/-- The HTML-extraction part of `search_books` (lines 168-239): primary path
over the first `limit` items of the «Найденные книги» list, or the fallback
scan over the first `limit` book anchors of the whole document. -/
def extractSearch (base : String) (page : SearchPage) (limit : Nat) : List BookInfo :=
  match page.booksSection with
  | some items => (items.take limit).filterMap (parseItem base)
  | none =>
    ((page.allAnchors.filter (fun a => hrefHasPat "/b/" a.href)).take limit).filterMap
      (parseFallbackAnchor base)

/-- The default of the `limit` parameter (line 147: `limit: int = 20`). -/
def searchBooksDefaultLimit : Nat := 20

/-- `search_books` around the network call: `([], no sleep)` on a raised
error or a non-200 status, otherwise the extracted list after the
`asyncio.sleep(1.0)` on line 243.  The second component of the result pair
records whether the pacing sleep was executed; the returned state is the
session state after the call. -/
def search_books (base : String) (st : ParserState) (resp : Fetch SearchPage)
    (limit : Nat) : (List BookInfo × Bool) × ParserState :=
  match resp with
  | .exn => (([], false), st)
  | .ok status page =>
    if status ≠ 200 then (([], false), st)
    else ((extractSearch base page limit, true), st)

/-- `search_books` as called with no explicit `limit` argument. -/
def search_books_default (base : String) (st : ParserState)
    (resp : Fetch SearchPage) : (List BookInfo × Bool) × ParserState :=
  search_books base st resp searchBooksDefaultLimit

/-! ## `get_book_details` download-links section (lines 296-430) -/

/-- One entry of `download_links`. -/
structure DownloadLink where
  format : String
  url : String
  text : String
deriving Repr, DecidableEq

/-- A parsed book-detail page, restricted to the structure the download-links
section queries: the `value` attributes of `select#useropt`'s options (when
that element exists) and every anchor of the document. -/
structure DetailPage where
  formatSelect : Option (List String)
  anchors : List Anchor
deriving Repr, DecidableEq

/-- Links synthesised from the format `select` element (lines 366-380). -/
def optionLinks (base bookId : String) (opts : List String) : List DownloadLink :=
  opts.filterMap (fun v =>
    let f := upperStr v
    if f = "" then none
    else some { format := f
                url := base ++ "/b/" ++ bookId ++ "/" ++ lowerStr f
                text := "Скачать в формате " ++ f })

/-- Format inference for a fallback download anchor (lines 396-413): a dot
suffix of the URL, else of the link text, else keyword search in the
lowercased text or URL, else `"UNKNOWN"`. -/
def inferFormat (href text : String) : String :=
  match extSuffix href with
  | some e => upperStr e
  | none =>
    match extSuffix text with
    | some e => upperStr e
    | none =>
      if containsSub "fb2" (lowerStr text) || containsSub "fb2" (lowerStr href) then "FB2"
      else if containsSub "epub" (lowerStr text) || containsSub "epub" (lowerStr href) then "EPUB"
      else if containsSub "mobi" (lowerStr text) || containsSub "mobi" (lowerStr href) then "MOBI"
      else if containsSub "pdf" (lowerStr text) || containsSub "pdf" (lowerStr href) then "PDF"
      else if containsSub "txt" (lowerStr text) || containsSub "txt" (lowerStr href) then "TXT"
      else "UNKNOWN"

/-- The three fallback URL patterns, in the order the code iterates them
(lines 384-388). -/
def downloadPatterns : List (String → Bool) :=
  [hrefHasLitWord "/download/", hrefHasLitWord "/get/", hrefHasBookFmt]

/-- The fallback scan over download anchors (lines 383-419): for each pattern
in order, every matching anchor yields a link. -/
def scanLinks (base : String) (page : DetailPage) : List DownloadLink :=
  (downloadPatterns.map (fun p =>
    (page.anchors.filter (fun a => p a.href)).map (fun a =>
      let text := getTextStrip a.text
      { format := inferFormat a.href text
        url := urljoin base a.href
        text := text }))).flatten

/-- The `download_links` value stored into `book_info` (lines 362-422):
`none` when the key is never set (empty list). -/
def detailLinks (base bookId : String) (page : DetailPage) : Option (List DownloadLink) :=
  let fromSelect :=
    match page.formatSelect with
    | some opts => optionLinks base bookId opts
    | none => []
  let links := if fromSelect.isEmpty then scanLinks base page else fromSelect
  if links.isEmpty then none else some links

/-- The slice of the `book_info` dict built by `get_book_details` that the
verified claims mention (`book_id`/`book_url` are assigned unconditionally on
line 316; the title/author/genre/description fields are not modelled). -/
structure BookDetail where
  book_id : String
  book_url : String
  download_links : Option (List DownloadLink) := none
deriving Repr, DecidableEq

/-- `get_book_details` around the network call: `none` without the pacing
sleep on a raised error or non-200 status; otherwise the parsed record, with
download links only for an authenticated session, after the
`asyncio.sleep(1.0)` on line 425. -/
def get_book_details (base : String) (st : ParserState) (bookId : String)
    (resp : Fetch DetailPage) : (Option BookDetail × Bool) × ParserState :=
  match resp with
  | .exn => ((none, false), st)
  | .ok status page =>
    if status ≠ 200 then ((none, false), st)
    else
      let links := if st.is_authenticated then detailLinks base bookId page else none
      ((some { book_id := bookId
               book_url := base ++ "/b/" ++ bookId
               download_links := links }, true), st)

/-! ## `download_book` (lines 432-450) -/

/-- `download_book`: raw bytes on a 200 response, `none` otherwise; the method
body contains no `asyncio.sleep` call, so the pacing flag is `false` on every
path. -/
def download_book (base : String) (st : ParserState) (bookId formatType : String)
    (resp : Fetch (List Nat)) : (Option (List Nat) × Bool) × ParserState :=
  match resp with
  | .exn => ((none, false), st)
  | .ok status body =>
    if status ≠ 200 then ((none, false), st)
    else ((some body, false), st)

/-! ## `login` / `_get_user_id` / `logout` (lines 52-145, 452-461) -/

/-- The login page as `login` inspects it: the first `<form method="post">`
element, if any, with its optional `csrf_token` input value. -/
structure LoginForm where
  csrf : Option String
deriving Repr, DecidableEq

structure LoginDoc where
  postForm : Option LoginForm
deriving Repr, DecidableEq

/-- The POST response: its final URL after redirects and its body text. -/
structure PostResult where
  finalUrl : String
  body : String
deriving Repr, DecidableEq

/-- The profile page as `_get_user_id` inspects it: the `href` of the first
anchor matching `/user/\d+`, if any. -/
structure ProfileDoc where
  userLink : Option String
deriving Repr, DecidableEq

/-- The three network interactions a `login` call can perform. -/
structure LoginWorld where
  loginPage : Fetch LoginDoc
  postLogin : Fetch PostResult
  profile : Fetch ProfileDoc
deriving Repr, DecidableEq

/-- `_get_user_id` (lines 130-145): best effort, every failure leaves the
state unchanged (its exceptions are caught internally). -/
def get_user_id (st : ParserState) (resp : Fetch ProfileDoc) : ParserState :=
  match resp with
  | .exn => st
  | .ok status doc =>
    if status ≠ 200 then st
    else
      match doc.userLink with
      | none => st
      | some href =>
        match findPatId "/user/" href with
        | none => st
        | some uid => { st with user_id := some uid }

/-- `login` (lines 52-128).  Credentials are `none` when neither the argument
nor the environment supplies them; the Python truthiness test also rejects
empty strings.  Success of the POST is the heuristic of line 109: `'user'` in
the final URL or `'logout'` in the body.  Every raised error yields `false`
with the state unchanged. -/
def login (st : ParserState) (username password : Option String)
    (w : LoginWorld) : Bool × ParserState :=
  let credOk : Option String → Bool := fun c => match c with
    | some s => s != ""
    | none => false
  if !(credOk username && credOk password) then (false, st)
  else
    match w.loginPage with
    | .exn => (false, st)
    | .ok status doc =>
      if status ≠ 200 then (false, st)
      else
        match doc.postForm with
        | none => (false, st)
        | some _form =>
          match w.postLogin with
          | .exn => (false, st)
          | .ok pstatus pr =>
            if pstatus = 200 then
              if containsSub "user" pr.finalUrl || containsSub "logout" pr.body then
                (true, get_user_id { st with is_authenticated := true } w.profile)
              else (false, st)
            else (false, st)

/-- `logout` (lines 452-461): flags are cleared inside the `with` block, so
only when the GET did not raise; any status clears them. -/
def logout (st : ParserState) (resp : Fetch Unit) : ParserState :=
  if st.is_authenticated then
    match resp with
    | .exn => st
    | .ok _ _ => { st with is_authenticated := false, user_id := none }
  else st

/-! ## Kindle send locks (bot.py lines 51, 233-259, 871-876) -/

/-- The in-memory dict `kindle_sending_locks`, modelled as an association
list from lock key to timestamp (seconds). -/
abbrev LockMap := List (String × Nat)

/-- `lock_key = f"{telegram_id}_{book_id}"`. -/
def lockKey (telegram_id : Nat) (book_id : String) : String :=
  toString telegram_id ++ "_" ++ book_id

/-- `is_kindle_sending_locked` (lines 233-236): pure membership test, no
timestamp check. -/
def is_kindle_sending_locked (locks : LockMap) (telegram_id : Nat)
    (book_id : String) : Bool :=
  (locks.lookup (lockKey telegram_id book_id)).isSome

/-- `set_kindle_sending_lock` (lines 238-241): dict assignment of the current
time (replaces any previous entry for the key). -/
def set_kindle_sending_lock (locks : LockMap) (telegram_id : Nat)
    (book_id : String) (now : Nat) : LockMap :=
  (lockKey telegram_id book_id, now) ::
    locks.filter (fun p => p.1 ≠ lockKey telegram_id book_id)

/-- `remove_kindle_sending_lock` (lines 243-247): delete the key if present. -/
def remove_kindle_sending_lock (locks : LockMap) (telegram_id : Nat)
    (book_id : String) : LockMap :=
  locks.filter (fun p => p.1 ≠ lockKey telegram_id book_id)

/-- `cleanup_expired_locks` (lines 249-259): drop every entry strictly older
than 300 seconds. -/
def cleanup_expired_locks (locks : LockMap) (now : Nat) : LockMap :=
  locks.filter (fun p => now - p.2 ≤ 300)

/-- The check-then-set sequence guarding a Kindle send (bot.py lines 871-876:
`if is_kindle_sending_locked(...): return` else `set_kindle_sending_lock`)
— the `tryAcquire` operation of the spec's Dedup/Lock Guard. -/
def tryAcquire (locks : LockMap) (telegram_id : Nat) (book_id : String)
    (now : Nat) : Bool × LockMap :=
  if is_kindle_sending_locked locks telegram_id book_id then (false, locks)
  else (true, set_kindle_sending_lock locks telegram_id book_id now)

/-! ## Helper notions for the search-extraction claims -/

/-- A well-formed results-list item in the sense the code can use it: it has
a book anchor and the cleaned title of that anchor is non-empty. -/
def wellFormedItem (it : LItem) : Bool :=
  match it.anchors.find? (fun a => hrefHasPat "/b/" a.href) with
  | some link => cleanTitle (getTextStrip link.text) != ""
  | none => false

/-- The book id an item would contribute: the digits of its first book
anchor. -/
def itemId (it : LItem) : Option String :=
  (it.anchors.find? (fun a => hrefHasPat "/b/" a.href)).bind
    (fun a => findPatId "/b/" a.href)

theorem parseItem_of_wf (base : String) (it : LItem)
    (h : wellFormedItem it = true) :
    ∃ b : BookInfo, parseItem base it = some b ∧ b.title ≠ "" ∧
      itemId it = some b.book_id := by
  unfold wellFormedItem at h
  cases hf : it.anchors.find? (fun a => hrefHasPat "/b/" a.href) with
  | none => rw [hf] at h; simp at h
  | some link =>
    rw [hf] at h
    have htitle : cleanTitle (getTextStrip link.text) ≠ "" := by
      simpa using h
    have hhref : hrefHasPat "/b/" link.href = true := by
      have := List.find?_some hf
      simpa using this
    obtain ⟨bid, hbid⟩ : ∃ bid, findPatId "/b/" link.href = some bid := by
      unfold hrefHasPat at hhref
      exact Option.isSome_iff_exists.mp hhref
    unfold parseItem
    simp only [hf, hbid, itemId, Option.some_bind]
    cases hal : it.anchors.filter (fun a => hrefHasPat "/a/" a.href) with
    | nil =>
      simp only [hal]
      split
      · exact absurd ‹_› htitle
      · exact ⟨_, rfl, htitle, rfl⟩
    | cons al rest =>
      have hala : hrefHasPat "/a/" al.href = true := by
        have hmem : al ∈ it.anchors.filter (fun a => hrefHasPat "/a/" a.href) := by
          rw [hal]; exact List.mem_cons_self al rest
        simpa using (List.mem_filter.mp hmem).2
      obtain ⟨aid, haid⟩ : ∃ aid, findPatId "/a/" al.href = some aid := by
        unfold hrefHasPat at hala
        exact Option.isSome_iff_exists.mp hala
      simp only [hal, haid]
      split <;> try split
      all_goals
        first
          | exact absurd ‹_› htitle
          | exact ⟨_, rfl, htitle, rfl⟩

theorem forall₂_filterMap_of_isSome {α β : Type} (f : α → Option β) :
    ∀ l : List α, (∀ x ∈ l, (f x).isSome) →
      List.Forall₂ (fun x b => f x = some b) l (l.filterMap f)
  | [], _ => by simp
  | x :: xs, h => by
    obtain ⟨b, hb⟩ : ∃ b, f x = some b :=
      Option.isSome_iff_exists.mp (h x (List.mem_cons_self x xs))
    rw [List.filterMap_cons, hb]
    exact List.Forall₂.cons hb
      (forall₂_filterMap_of_isSome f xs fun y hy => h y (List.mem_cons_of_mem x hy))

theorem forall₂_parseItem_map_id (base : String) :
    ∀ {l : List LItem} {r : List BookInfo},
      List.Forall₂ (fun it b => parseItem base it = some b) l r →
      (∀ it ∈ l, wellFormedItem it = true) →
      r.map BookInfo.book_id = l.filterMap itemId := by
  intro l r h
  induction h with
  | nil => intro _; simp
  | @cons it b l' r' hab _ ih =>
    intro hw
    obtain ⟨b', hb', _, hid'⟩ :=
      parseItem_of_wf base it (hw it (List.mem_cons_self it l'))
    have hbb : b' = b := by
      rw [hab] at hb'; exact (Option.some_inj.mp hb').symm
    rw [List.map_cons, List.filterMap_cons, hid', hbb,
      ih fun y hy => hw y (List.mem_cons_of_mem it hy)]

/-! ## Claim C1 -/

/-- C1 (amended): for every search-results page whose marker section holds a
list of well-formed items whose book ids are pairwise distinct, and every cap,
extraction returns exactly `min N cap` records, pairwise produced from the
first `cap` items in document order, each with a non-empty cleaned title, and
with book ids unique within the returned list.  (The claim as frozen is false
without the distinct-ids hypothesis: the code never deduplicates, see the
counterexample.) -/
theorem search_primary_min_order_titles_unique
    (base : String) (page : SearchPage) (items : List LItem) (limit : Nat)
    (hsec : page.booksSection = some items)
    (hwf : ∀ it ∈ items, wellFormedItem it = true)
    (hids : (items.filterMap itemId).Nodup) :
    (extractSearch base page limit).length = min items.length limit ∧
    List.Forall₂ (fun it b => parseItem base it = some b) (items.take limit)
      (extractSearch base page limit) ∧
    (∀ b ∈ extractSearch base page limit, b.title ≠ "") ∧
    ((extractSearch base page limit).map BookInfo.book_id).Nodup := by
  have hext : extractSearch base page limit
      = (items.take limit).filterMap (parseItem base) := by
    unfold extractSearch; rw [hsec]
  have hwf' : ∀ it ∈ items.take limit, wellFormedItem it = true :=
    fun it hit => hwf it (List.mem_of_mem_take hit)
  have hsome : ∀ it ∈ items.take limit, (parseItem base it).isSome := by
    intro it hit
    obtain ⟨b, hb, -, -⟩ := parseItem_of_wf base it (hwf' it hit)
    simp [hb]
  have hfa := forall₂_filterMap_of_isSome (parseItem base) (items.take limit) hsome
  rw [hext]
  refine ⟨?_, hfa, ?_, ?_⟩
  · rw [← hfa.length_eq, List.length_take]
    omega
  · intro b hb
    obtain ⟨it, hit, hsb⟩ := List.mem_filterMap.mp hb
    obtain ⟨b', hb', ht', -⟩ := parseItem_of_wf base it (hwf' it hit)
    have : b' = b := by rw [hb'] at hsb; exact Option.some_inj.mp hsb
    exact this ▸ ht'
  · rw [forall₂_parseItem_map_id base hfa hwf']
    exact hids.sublist (List.Sublist.filterMap itemId (List.take_sublist limit items))

/-- Two well-formed items that both link to book `/b/1`. -/
def c1DupItems : List LItem :=
  [⟨[⟨"/b/1", "A"⟩]⟩, ⟨[⟨"/b/1", "B"⟩]⟩]

def c1DupPage : SearchPage := ⟨some c1DupItems, []⟩

/-- C1 counterexample: on a page with two well-formed items referencing the
same book id, extraction returns both records and the returned book ids are
not pairwise distinct, refuting the uniqueness part of the claim as frozen. -/
theorem search_primary_unique_ids_counterexample :
    (∀ it ∈ c1DupItems, wellFormedItem it = true) ∧
    (extractSearch "https://flibusta.is" c1DupPage 20).length
      = min c1DupItems.length 20 ∧
    (extractSearch "https://flibusta.is" c1DupPage 20).map BookInfo.book_id
      = ["1", "1"] ∧
    ¬ ((extractSearch "https://flibusta.is" c1DupPage 20).map
        BookInfo.book_id).Nodup := by
  decide

/-- Two well-formed items with distinct book ids. -/
def c1GoodItems : List LItem :=
  [⟨[⟨"/b/1", "A"⟩]⟩, ⟨[⟨"/b/2", "B"⟩]⟩]

def c1GoodPage : SearchPage := ⟨some c1GoodItems, []⟩

theorem search_primary_min_order_titles_unique_witness :
    (∀ it ∈ c1GoodItems, wellFormedItem it = true) ∧
    (c1GoodItems.filterMap itemId).Nodup ∧
    ((extractSearch "https://flibusta.is" c1GoodPage 5).length
        = min c1GoodItems.length 5 ∧
      List.Forall₂ (fun it b => parseItem "https://flibusta.is" it = some b)
        (c1GoodItems.take 5) (extractSearch "https://flibusta.is" c1GoodPage 5) ∧
      (∀ b ∈ extractSearch "https://flibusta.is" c1GoodPage 5, b.title ≠ "") ∧
      ((extractSearch "https://flibusta.is" c1GoodPage 5).map
          BookInfo.book_id).Nodup) :=
  ⟨by decide, by decide,
    search_primary_min_order_titles_unique "https://flibusta.is" c1GoodPage
      c1GoodItems 5 rfl (by decide) (by decide)⟩

/-! ## Claim C9 -/

/-- An item with no book anchor followed by two valid items. -/
def c9Items : List LItem :=
  [⟨[]⟩, ⟨[⟨"/b/2", "G1"⟩]⟩, ⟨[⟨"/b/3", "G2"⟩]⟩]

def c9Page : SearchPage := ⟨some c9Items, []⟩

/-- C9: the cap is taken over the raw list items before validity filtering
(`book_items[:limit]` and only then the per-item checks), so an invalid item
among the first `cap` consumes a slot: here cap 2 yields a single record even
though a further well-formed item exists at position 2. -/
theorem search_primary_cap_before_filter :
    extractSearch "" c9Page 2 = (c9Items.take 2).filterMap (parseItem "") ∧
    wellFormedItem ⟨[]⟩ = false ∧
    (extractSearch "" c9Page 2).map BookInfo.book_id = ["2"] ∧
    (extractSearch "" c9Page 2).length = 1 ∧
    (1 : Nat) < 2 ∧
    wellFormedItem ⟨[⟨"/b/3", "G2"⟩]⟩ = true ∧
    itemId ⟨[⟨"/b/3", "G2"⟩]⟩ = some "3" := by
  decide

/-! ## Claim C5 -/

def c5Page : SearchPage := ⟨none, [⟨"/b/5", "T"⟩]⟩

/-- C5 counterexample: the fallback path also populates the record's
`book_url` (flibusta_parser.py line 231), so the claim's "every other
BookSummary field (URL, …) is unset" is false: here the single fallback
record carries the resolved book URL. -/
theorem search_fallback_url_populated_counterexample :
    (extractSearch "https://flibusta.is" c5Page 20).map BookInfo.book_url
      = [some "https://flibusta.is/b/5"] ∧
    ∀ b ∈ extractSearch "https://flibusta.is" c5Page 20, b.book_url ≠ none := by
  decide

/-- C5 (amended): on a page without the marker section the fallback path
returns at most `cap` records, each with a non-empty title, a book id, and a
populated book URL, while the author fields (author, author URL, author id,
co-authors) are all unset. -/
theorem search_fallback_minimal_records
    (base : String) (page : SearchPage) (limit : Nat)
    (hsec : page.booksSection = none) :
    (extractSearch base page limit).length ≤ limit ∧
    ∀ b ∈ extractSearch base page limit,
      b.title ≠ "" ∧ b.book_url.isSome ∧ b.author = none ∧
      b.author_url = none ∧ b.author_id = none ∧ b.authors = none := by
  have hext : extractSearch base page limit
      = ((page.allAnchors.filter (fun a => hrefHasPat "/b/" a.href)).take
          limit).filterMap (parseFallbackAnchor base) := by
    unfold extractSearch; rw [hsec]
  rw [hext]
  constructor
  · exact le_trans (List.length_filterMap_le _ _)
      (le_trans (List.length_take_le _ _) (le_refl _))
  · intro b hb
    obtain ⟨a, -, hsb⟩ := List.mem_filterMap.mp hb
    unfold parseFallbackAnchor at hsb
    cases hid : findPatId "/b/" a.href with
    | none => simp [hid] at hsb
    | some bid =>
      simp only [hid] at hsb
      by_cases ht : getTextStrip a.text = ""
      · rw [if_pos ht] at hsb; simp at hsb
      · rw [if_neg ht] at hsb
        have hb' := Option.some_inj.mp hsb
        rw [← hb']
        exact ⟨ht, rfl, rfl, rfl, rfl, rfl⟩

theorem search_fallback_minimal_records_witness :
    c5Page.booksSection = none ∧
    ((extractSearch "https://flibusta.is" c5Page 20).length ≤ 20 ∧
      ∀ b ∈ extractSearch "https://flibusta.is" c5Page 20,
        b.title ≠ "" ∧ b.book_url.isSome ∧ b.author = none ∧
        b.author_url = none ∧ b.author_id = none ∧ b.authors = none) :=
  ⟨rfl, search_fallback_minimal_records "https://flibusta.is" c5Page 20 rfl⟩

/-! ## Claim C6 -/

def c6Items : List LItem := List.replicate 101 ⟨[⟨"/b/7", "X"⟩]⟩

/-- C6 counterexample: `search_books`' `limit` parameter defaults to 20
(flibusta_parser.py line 147), not 100: calling it without a limit on a page
whose marker section holds 101 well-formed items returns 20 records, not
`min 101 100 = 100`.  (The front-end call site bot.py line 543 passes
`limit=100` explicitly; that is a caller-supplied limit, not a default.) -/
theorem search_default_limit_counterexample :
    searchBooksDefaultLimit = 20 ∧
    c6Items.length = 101 ∧
    ((search_books_default "" ⟨false, none⟩
        (.ok 200 ⟨some c6Items, []⟩)).1.1).length = 20 ∧
    (20 : Nat) ≠ min 101 100 := by
  decide

/-- C6 (amended): when the caller supplies no result limit, `search_books`
caps its result list at the default of 20 records. -/
theorem search_default_limit_is_twenty
    (base : String) (st : ParserState) (page : SearchPage) (items : List LItem)
    (hsec : page.booksSection = some items)
    (hwf : ∀ it ∈ items, wellFormedItem it = true) :
    ((search_books_default base st (.ok 200 page)).1.1).length
      = min items.length 20 := by
  have hred : (search_books_default base st (.ok 200 page)).1.1
      = extractSearch base page searchBooksDefaultLimit := by
    unfold search_books_default search_books
    simp
  rw [hred]
  have hext : extractSearch base page searchBooksDefaultLimit
      = (items.take searchBooksDefaultLimit).filterMap (parseItem base) := by
    unfold extractSearch; rw [hsec]
  have hsome : ∀ it ∈ items.take searchBooksDefaultLimit,
      (parseItem base it).isSome := by
    intro it hit
    obtain ⟨b, hb, -, -⟩ :=
      parseItem_of_wf base it (hwf it (List.mem_of_mem_take hit))
    simp [hb]
  have hfa := forall₂_filterMap_of_isSome (parseItem base) _ hsome
  rw [hext, ← hfa.length_eq, List.length_take]
  unfold searchBooksDefaultLimit
  omega

def c6SmallItems : List LItem := [⟨[⟨"/b/4", "Y"⟩]⟩]

theorem search_default_limit_is_twenty_witness :
    (∀ it ∈ c6SmallItems, wellFormedItem it = true) ∧
    ((search_books_default "" ⟨false, none⟩
        (.ok 200 ⟨some c6SmallItems, []⟩)).1.1).length
      = min c6SmallItems.length 20 :=
  ⟨by decide,
    search_default_limit_is_twenty "" ⟨false, none⟩ ⟨some c6SmallItems, []⟩
      c6SmallItems rfl (by decide)⟩

/-! ## Claim C7 -/

/-- Two adjacent characters are not both whitespace. -/
def wsSep (a b : Char) : Prop := ¬(a.isWhitespace ∧ b.isWhitespace)

instance : DecidableRel wsSep := fun a b =>
  inferInstanceAs (Decidable ¬(a.isWhitespace ∧ b.isWhitespace))

/-- No two adjacent characters of the list are both whitespace. -/
def noDoubleWs : List Char → Bool
  | a :: b :: rest => (!(a.isWhitespace && b.isWhitespace)) && noDoubleWs (b :: rest)
  | _ => true

/-- "No run of two or more consecutive whitespace characters". -/
def TitleWsOk (s : String) : Prop := noDoubleWs s.toList = true

instance (s : String) : Decidable (TitleWsOk s) :=
  inferInstanceAs (Decidable (noDoubleWs s.toList = true))

theorem noDoubleWs_iff_chain' :
    ∀ l : List Char, noDoubleWs l = true ↔ List.Chain' wsSep l
  | [] => by simp [noDoubleWs]
  | [a] => by simp [noDoubleWs]
  | a :: b :: l => by
    rw [List.chain'_cons]
    simp only [noDoubleWs, Bool.and_eq_true]
    rw [noDoubleWs_iff_chain' (b :: l)]
    simp only [wsSep]
    constructor
    · rintro ⟨h1, h2⟩
      refine ⟨fun hp => ?_, h2⟩
      rcases hp with ⟨ha, hb⟩
      simp [ha, hb] at h1
    · rintro ⟨h1, h2⟩
      refine ⟨?_, h2⟩
      by_cases ha : a.isWhitespace
      · by_cases hb : b.isWhitespace
        · exact absurd ⟨ha, hb⟩ h1
        · simp [hb]
      · simp [ha]

theorem collapseWs_cons_of_not_ws (d : Char) (cs : List Char)
    (h : d.isWhitespace = false) : ∃ t, collapseWs (d :: cs) = d :: t := by
  cases cs with
  | nil => exact ⟨[], by simp [collapseWs, h]⟩
  | cons e cs' => exact ⟨collapseWs (e :: cs'), by simp [collapseWs, h]⟩

theorem chain'_collapseWs : ∀ l : List Char, List.Chain' wsSep (collapseWs l)
  | [] => by simp [collapseWs]
  | [c] => by by_cases h : c.isWhitespace <;> simp [collapseWs, h]
  | c :: d :: cs => by
    have ih := chain'_collapseWs (d :: cs)
    cases hc : c.isWhitespace with
    | true =>
      cases hd : d.isWhitespace with
      | true => simpa [collapseWs, hc, hd] using ih
      | false =>
        rw [show collapseWs (c :: d :: cs) = ' ' :: collapseWs (d :: cs) by
          simp [collapseWs, hc, hd]]
        refine List.chain'_cons'.mpr ⟨?_, ih⟩
        obtain ⟨t, ht⟩ := collapseWs_cons_of_not_ws d cs hd
        rw [ht]
        intro y hy
        have hyd : d = y := by simpa using hy
        subst hyd
        exact fun hwpair => by simp [hd] at hwpair
    | false =>
      rw [show collapseWs (c :: d :: cs) = c :: collapseWs (d :: cs) by
        simp [collapseWs, hc]]
      refine List.chain'_cons'.mpr ⟨?_, ih⟩
      intro y _
      exact fun hwpair => by simp [hc] at hwpair

theorem chain'_wsSep_reverse {l : List Char} (h : List.Chain' wsSep l) :
    List.Chain' wsSep l.reverse := by
  rw [List.chain'_reverse]
  exact h.imp fun a b hab => fun hp => hab ⟨hp.2, hp.1⟩

theorem chain'_trimList {l : List Char} (h : List.Chain' wsSep l) :
    List.Chain' wsSep (trimList l) := by
  unfold trimList
  exact chain'_wsSep_reverse
    ((chain'_wsSep_reverse
      (h.suffix (List.dropWhile_suffix _))).suffix (List.dropWhile_suffix _))

theorem titleWsOk_cleanTitle (s : String) : TitleWsOk (cleanTitle s) :=
  (noDoubleWs_iff_chain' _).mpr
    (chain'_trimList (chain'_collapseWs (stripSpans s.toList)))

/-- Every record the primary path produces carries a `cleanTitle`-cleaned
title. -/
theorem parseItem_title_shape (base : String) (it : LItem) (b : BookInfo)
    (h : parseItem base it = some b) : ∃ s, b.title = cleanTitle s := by
  have finalStage : ∀ info3 : BookInfo,
      (if cleanTitle info3.title = "" then none
        else some { info3 with title := cleanTitle info3.title }) = some b →
      ∃ s, b.title = cleanTitle s := by
    intro info3 hfin
    by_cases hc : cleanTitle info3.title = ""
    · rw [if_pos hc] at hfin; simp at hfin
    · rw [if_neg hc] at hfin
      have := Option.some_inj.mp hfin
      subst this
      exact ⟨_, rfl⟩
  unfold parseItem at h
  cases hf : it.anchors.find? (fun a => hrefHasPat "/b/" a.href) with
  | none => rw [hf] at h; simp at h
  | some link =>
    cases hid : findPatId "/b/" link.href with
    | none => simp [hf, hid] at h
    | some bid =>
      simp only [hf, hid] at h
      cases hal : it.anchors.filter (fun a => hrefHasPat "/a/" a.href) with
      | nil =>
        simp only [hal] at h
        exact finalStage
          { title := getTextStrip link.text
            book_url := some (urljoin base link.href)
            book_id := bid } h
      | cons al rest =>
        cases haid : findPatId "/a/" al.href with
        | none => simp [hal, haid] at h
        | some aid =>
          cases hrest : rest.isEmpty with
          | true =>
            simp only [hal, haid, hrest] at h
            exact finalStage
              { title := getTextStrip link.text
                book_url := some (urljoin base link.href)
                book_id := bid
                author := some (getTextStrip al.text)
                author_url := some (urljoin base al.href)
                author_id := some aid } h
          | false =>
            simp only [hal, haid, hrest] at h
            exact finalStage
              { title := getTextStrip link.text
                book_url := some (urljoin base link.href)
                book_id := bid
                author := some (getTextStrip al.text)
                author_url := some (urljoin base al.href)
                author_id := some aid
                authors := some ((al :: rest).map fun a => getTextStrip a.text) } h

/-- C7 (amended): every title produced by the primary search path is
whitespace-collapsed — it contains no run of two or more consecutive
whitespace characters.  (As frozen the claim also covered the fallback path
and detail extraction, whose titles only pass through `get_text(strip=True)`:
see the counterexample.) -/
theorem search_primary_titles_ws_collapsed
    (base : String) (page : SearchPage) (items : List LItem) (limit : Nat)
    (hsec : page.booksSection = some items) :
    ∀ b ∈ extractSearch base page limit, TitleWsOk b.title := by
  intro b hb
  unfold extractSearch at hb
  rw [hsec] at hb
  obtain ⟨it, -, hsb⟩ := List.mem_filterMap.mp hb
  obtain ⟨s, hs⟩ := parseItem_title_shape base it b hsb
  rw [hs]
  exact titleWsOk_cleanTitle s

def c7FallbackPage : SearchPage := ⟨none, [⟨"/b/5", "A  B"⟩]⟩

/-- C7 counterexample: the fallback path applies no whitespace collapsing —
an anchor whose text holds an interior double space yields a title with a run
of two whitespace characters. -/
theorem search_titles_ws_counterexample :
    (extractSearch "" c7FallbackPage 20).map BookInfo.title = ["A  B"] ∧
    ¬ TitleWsOk "A  B" := by
  decide

def c7PrimaryItems : List LItem := [⟨[⟨"/b/9", "T   x"⟩]⟩]

def c7PrimaryPage : SearchPage := ⟨some c7PrimaryItems, []⟩

theorem search_primary_titles_ws_collapsed_witness :
    c7PrimaryPage.booksSection = some c7PrimaryItems ∧
    ((extractSearch "" c7PrimaryPage 20).map BookInfo.title = ["T x"] ∧
      ∀ b ∈ extractSearch "" c7PrimaryPage 20, TitleWsOk b.title) :=
  ⟨rfl, by decide,
    search_primary_titles_ws_collapsed "" c7PrimaryPage c7PrimaryItems 20 rfl⟩

/-! ## Claim C2 -/

theorem lookup_filter_ne_eq_none (k : String) :
    ∀ m : LockMap, (m.filter (fun p => p.1 ≠ k)).lookup k = none
  | [] => rfl
  | (k', v) :: m => by
    by_cases hk : k' = k
    · rw [List.filter_cons_of_neg (by simpa using hk)]
      exact lookup_filter_ne_eq_none k m
    · rw [List.filter_cons_of_pos (by simpa using hk)]
      have hbeq : (k == k') = false := beq_eq_false_iff_ne.mpr (Ne.symm hk)
      simp only [List.lookup, hbeq]
      exact lookup_filter_ne_eq_none k m

theorem lookup_cleanup_eq_none (k : String) (now : Nat) :
    ∀ m : LockMap, (∀ p ∈ m, p.1 = k → now - p.2 > 300) →
      (cleanup_expired_locks m now).lookup k = none
  | [], _ => rfl
  | (k', v) :: m, h => by
    have htl := lookup_cleanup_eq_none k now m
      (fun p hp => h p (List.mem_cons_of_mem _ hp))
    unfold cleanup_expired_locks at htl ⊢
    by_cases hkeep : now - v ≤ 300
    · have hk : k' ≠ k := by
        intro hkk
        have := h (k', v) (List.mem_cons_self _ m) hkk
        omega
      rw [List.filter_cons_of_pos (by simpa using hkeep)]
      have hbeq : (k == k') = false := beq_eq_false_iff_ne.mpr (Ne.symm hk)
      simp only [List.lookup, hbeq]
      exact htl
    · rw [List.filter_cons_of_neg (by simpa using hkeep)]
      exact htl

/-- C2 counterexample: `is_kindle_sending_locked` is a pure membership test
that never looks at the timestamp, so with no intervening sweep a lock
recorded at time 0 still blocks `tryAcquire` at time 1000, although
1000 − 0 > 300 (the 5-minute threshold).  This refutes the claim's part that
an expired lock makes `tryAcquire` return true. -/
theorem kindle_lock_expiry_counterexample :
    (1000 : Nat) - 0 > 300 ∧
    (tryAcquire [(lockKey 1 "book42", 0)] 1 "book42" 1000).1 = false := by
  decide

/-- C2 (amended): a first `tryAcquire` on a key returns true and a second
immediate one returns false; after `release` a subsequent `tryAcquire`
returns true; and a lock whose every recorded timestamp for the key is older
than the 5-minute threshold is acquirable again without explicit release
*once the periodic sweep (`cleanup_expired_locks`) has run*. -/
theorem kindle_lock_guard_behaviour
    (tid : Nat) (bid : String) (now now2 now3 : Nat) (m : LockMap) :
    (tryAcquire [] tid bid now).1 = true ∧
    (tryAcquire (tryAcquire [] tid bid now).2 tid bid now2).1 = false ∧
    (tryAcquire (remove_kindle_sending_lock m tid bid) tid bid now).1 = true ∧
    ((∀ p ∈ m, p.1 = lockKey tid bid → now3 - p.2 > 300) →
      (tryAcquire (cleanup_expired_locks m now3) tid bid now3).1 = true) := by
  refine ⟨rfl, ?_, ?_, ?_⟩
  · simp [tryAcquire, is_kindle_sending_locked, set_kindle_sending_lock,
      List.lookup]
  · simp [tryAcquire, is_kindle_sending_locked, remove_kindle_sending_lock,
      lookup_filter_ne_eq_none]
  · intro hold
    simp [tryAcquire, is_kindle_sending_locked,
      lookup_cleanup_eq_none _ _ _ hold]

theorem kindle_lock_guard_behaviour_witness :
    (∀ p ∈ [(lockKey 1 "book42", 0)], p.1 = lockKey 1 "book42" →
      (1000 : Nat) - p.2 > 300) ∧
    ((tryAcquire [] 1 "book42" 10).1 = true ∧
      (tryAcquire (tryAcquire [] 1 "book42" 10).2 1 "book42" 11).1 = false ∧
      (tryAcquire (remove_kindle_sending_lock [(lockKey 1 "book42", 0)] 1
          "book42") 1 "book42" 12).1 = true ∧
      ((∀ p ∈ [(lockKey 1 "book42", 0)], p.1 = lockKey 1 "book42" →
          (1000 : Nat) - p.2 > 300) →
        (tryAcquire (cleanup_expired_locks [(lockKey 1 "book42", 0)] 1000) 1
            "book42" 1000).1 = true)) :=
  ⟨by decide,
    kindle_lock_guard_behaviour 1 "book42" 10 11 1000 [(lockKey 1 "book42", 0)]⟩

/-! ## Claim C3 -/

/-- C3 counterexample: `download_book` contains no pacing sleep at all, even
on a 200 success, and `search_books` / `get_book_details` skip the sleep on
non-200 and raised-error paths — refuting "the pacing delay is executed on
every outcome path of all three operations". -/
theorem pacing_counterexample :
    (download_book "" ⟨true, none⟩ "1" "epub" (.ok 200 [1, 2, 3])).1.2 = false ∧
    (download_book "" ⟨true, none⟩ "1" "epub" (.ok 404 [])).1.2 = false ∧
    (search_books "" ⟨true, none⟩ (.ok 404 ⟨some [], []⟩) 20).1.2 = false ∧
    (get_book_details "" ⟨true, none⟩ "1" .exn).1.2 = false := by
  decide

/-- C3 (amended): `search_books` and `get_book_details` execute the pacing
sleep exactly on their success path (a 200 response that is parsed and
returned); their non-200 and raised-error paths return without it; and
`download_book` never executes a pacing sleep on any path. -/
theorem pacing_success_only
    (base : String) (st : ParserState) (page : SearchPage) (dp : DetailPage)
    (bid fmt : String) (lim s : Nat) (r : Fetch (List Nat)) :
    (search_books base st (.ok 200 page) lim).1.2 = true ∧
    (s ≠ 200 → (search_books base st (.ok s page) lim).1.2 = false) ∧
    (search_books base st .exn lim).1.2 = false ∧
    (get_book_details base st bid (.ok 200 dp)).1.2 = true ∧
    (s ≠ 200 → (get_book_details base st bid (.ok s dp)).1.2 = false) ∧
    (get_book_details base st bid .exn).1.2 = false ∧
    (download_book base st bid fmt r).1.2 = false := by
  refine ⟨by simp [search_books], fun hs => by simp [search_books, hs], rfl,
    by simp [get_book_details], fun hs => by simp [get_book_details, hs], rfl,
    ?_⟩
  cases r with
  | exn => rfl
  | ok s' b =>
    by_cases h200 : s' = 200 <;> simp [download_book, h200]

theorem pacing_success_only_witness :
    ((404 : Nat) ≠ 200) ∧
    ((search_books "" ⟨true, none⟩ (.ok 200 ⟨some [], []⟩) 20).1.2 = true ∧
      ((404 : Nat) ≠ 200 →
        (search_books "" ⟨true, none⟩ (.ok 404 ⟨some [], []⟩) 20).1.2 = false) ∧
      (search_books "" ⟨true, none⟩ .exn 20).1.2 = false ∧
      (get_book_details "" ⟨true, none⟩ "1" (.ok 200 ⟨none, []⟩)).1.2 = true ∧
      ((404 : Nat) ≠ 200 →
        (get_book_details "" ⟨true, none⟩ "1" (.ok 404 ⟨none, []⟩)).1.2 = false) ∧
      (get_book_details "" ⟨true, none⟩ "1" .exn).1.2 = false ∧
      (download_book "" ⟨true, none⟩ "1" "epub" (.ok 200 [7])).1.2 = false) :=
  ⟨by decide,
    pacing_success_only "" ⟨true, none⟩ ⟨some [], []⟩ ⟨none, []⟩ "1" "epub" 20
      404 (.ok 200 [7])⟩

/-! ## Claim C10 -/

/-- C10: `search_books`, `get_book_details` and `download_book` leave the
session's `is_authenticated` flag and `user_id` unchanged on every path
(the translated method bodies contain no assignment to either field; only
`login` and `logout` carry such assignments). -/
theorem session_state_frame
    (base : String) (st : ParserState) (resp1 : Fetch SearchPage)
    (resp2 : Fetch DetailPage) (resp3 : Fetch (List Nat))
    (bid bid2 fmt : String) (lim : Nat) :
    (search_books base st resp1 lim).2 = st ∧
    (get_book_details base st bid resp2).2 = st ∧
    (download_book base st bid2 fmt resp3).2 = st := by
  refine ⟨?_, ?_, ?_⟩
  · cases resp1 with
    | exn => rfl
    | ok s page => by_cases h : s = 200 <;> simp [search_books, h]
  · cases resp2 with
    | exn => rfl
    | ok s page => by_cases h : s = 200 <;> simp [get_book_details, h]
  · cases resp3 with
    | exn => rfl
    | ok s body => by_cases h : s = 200 <;> simp [download_book, h]

/-! ## Claim C4 -/

/-- `_get_user_id` touches only `user_id`, never the authenticated flag. -/
theorem get_user_id_auth (st : ParserState) (resp : Fetch ProfileDoc) :
    (get_user_id st resp).is_authenticated = st.is_authenticated := by
  unfold get_user_id
  repeat' split
  all_goals rfl

/-- C4: `login` with valid credentials against a login page containing the
post form and a POST response carrying a success marker returns true and sets
the authenticated flag; when the POST response carries no success marker it
returns false and leaves the fresh session state unchanged (flag unset); and
a raised error on the initial login-page fetch yields false with the state
unchanged — the translated function is total, so no exception escapes. -/
theorem login_behaviour
    (u p : String) (doc : LoginDoc) (f : LoginForm) (pr : PostResult)
    (w : LoginWorld)
    (hu : u ≠ "") (hp : p ≠ "") (hform : doc.postForm = some f) :
    (w.loginPage = .ok 200 doc → w.postLogin = .ok 200 pr →
      (containsSub "user" pr.finalUrl || containsSub "logout" pr.body) = true →
      (login ⟨false, none⟩ (some u) (some p) w).1 = true ∧
      (login ⟨false, none⟩ (some u) (some p) w).2.is_authenticated = true) ∧
    (w.loginPage = .ok 200 doc → w.postLogin = .ok 200 pr →
      (containsSub "user" pr.finalUrl || containsSub "logout" pr.body) = false →
      login ⟨false, none⟩ (some u) (some p) w = (false, ⟨false, none⟩)) ∧
    (w.loginPage = .exn →
      login ⟨false, none⟩ (some u) (some p) w = (false, ⟨false, none⟩)) := by
  refine ⟨?_, ?_, ?_⟩
  · intro hget hpost hmark
    unfold login
    simp only [hget, hpost, hform, hu, hp, hmark]
    simp [hu, hp, get_user_id_auth]
  · intro hget hpost hmark
    unfold login
    simp only [hget, hpost, hform, hu, hp, hmark]
    simp [hu, hp]
  · intro hget
    unfold login
    simp only [hget, hu, hp]
    simp [hu, hp]

def c4GoodWorld : LoginWorld :=
  ⟨.ok 200 ⟨some ⟨none⟩⟩, .ok 200 ⟨"https://flibusta.is/user", "…"⟩,
    .ok 200 ⟨some "/user/77"⟩⟩

theorem login_behaviour_witness :
    (("alice" : String) ≠ "" ∧ ("s3cret" : String) ≠ "" ∧
      (⟨some ⟨none⟩⟩ : LoginDoc).postForm = some ⟨none⟩) ∧
    ((c4GoodWorld.loginPage = .ok 200 ⟨some ⟨none⟩⟩ →
      c4GoodWorld.postLogin = .ok 200 ⟨"https://flibusta.is/user", "…"⟩ →
      (containsSub "user" "https://flibusta.is/user" ||
        containsSub "logout" "…") = true →
      (login ⟨false, none⟩ (some "alice") (some "s3cret") c4GoodWorld).1 = true ∧
      (login ⟨false, none⟩ (some "alice") (some "s3cret")
          c4GoodWorld).2.is_authenticated = true) ∧
    (c4GoodWorld.loginPage = .ok 200 ⟨some ⟨none⟩⟩ →
      c4GoodWorld.postLogin = .ok 200 ⟨"https://flibusta.is/user", "…"⟩ →
      (containsSub "user" "https://flibusta.is/user" ||
        containsSub "logout" "…") = false →
      login ⟨false, none⟩ (some "alice") (some "s3cret") c4GoodWorld
        = (false, ⟨false, none⟩)) ∧
    (c4GoodWorld.loginPage = .exn →
      login ⟨false, none⟩ (some "alice") (some "s3cret") c4GoodWorld
        = (false, ⟨false, none⟩))) :=
  ⟨⟨by decide, by decide, rfl⟩,
    login_behaviour "alice" "s3cret" ⟨some ⟨none⟩⟩ ⟨none⟩
      ⟨"https://flibusta.is/user", "…"⟩ c4GoodWorld
      (by decide) (by decide) rfl⟩

/-! ## Claim C8 -/

/-- Modelled from the spec's words, for comparison with the code (claim C8):
format from the explicit selector, otherwise from the link URL's suffix,
otherwise from keywords in the link text; otherwise UNKNOWN. -/
def claimedInferFormat (href text : String) : String :=
  match extSuffix href with
  | some e => upperStr e
  | none =>
    if containsSub "fb2" (lowerStr text) then "FB2"
    else if containsSub "epub" (lowerStr text) then "EPUB"
    else if containsSub "mobi" (lowerStr text) then "MOBI"
    else if containsSub "pdf" (lowerStr text) then "PDF"
    else if containsSub "txt" (lowerStr text) then "TXT"
    else "UNKNOWN"

def c8Page : DetailPage := ⟨none, [⟨"/get/epub", "Download"⟩]⟩

/-- C8 counterexample: for a download anchor with URL `/get/epub` and text
`Download`, the claim's priority (selector → URL suffix → text keywords)
yields UNKNOWN, but the code also scans the URL for keywords and tags the
link EPUB — the produced `DownloadLink` differs from the claim's prediction. -/
theorem format_inference_counterexample :
    claimedInferFormat "/get/epub" "Download" = "UNKNOWN" ∧
    inferFormat "/get/epub" "Download" = "EPUB" ∧
    (get_book_details "https://flibusta.is" ⟨true, none⟩ "7"
        (.ok 200 c8Page)).1.1.map BookDetail.download_links
      = some (some [⟨"EPUB", "https://flibusta.is/get/epub", "Download"⟩]) := by
  decide

/-- C8 (amended): the format tag of a produced `DownloadLink` is determined
with this priority: the explicit format-selector element when it yields at
least one option with a non-empty value; otherwise a dot suffix of the link
URL; otherwise a dot suffix of the link text; otherwise keywords searched in
the lowercased link text *or URL*; when none of these match the tag is
UNKNOWN and the link is still included rather than dropped. -/
theorem format_inference_priority
    (base bookId href text e : String) (page : DetailPage)
    (opts : List String) (v : String) (a : Anchor) (pat : String → Bool) :
    (page.formatSelect = some opts → v ∈ opts → upperStr v ≠ "" →
      detailLinks base bookId page = some (optionLinks base bookId opts)) ∧
    (extSuffix href = some e → inferFormat href text = upperStr e) ∧
    (extSuffix href = none → extSuffix text = some e →
      inferFormat href text = upperStr e) ∧
    (extSuffix href = none → extSuffix text = none →
      containsSub "fb2" (lowerStr text) = false →
      containsSub "fb2" (lowerStr href) = false →
      containsSub "epub" (lowerStr text) = false →
      containsSub "epub" (lowerStr href) = false →
      containsSub "mobi" (lowerStr text) = false →
      containsSub "mobi" (lowerStr href) = false →
      containsSub "pdf" (lowerStr text) = false →
      containsSub "pdf" (lowerStr href) = false →
      containsSub "txt" (lowerStr text) = false →
      containsSub "txt" (lowerStr href) = false →
      inferFormat href text = "UNKNOWN") ∧
    (pat ∈ downloadPatterns → a ∈ page.anchors → pat a.href = true →
      ({ format := inferFormat a.href (getTextStrip a.text)
         url := urljoin base a.href
         text := getTextStrip a.text } : DownloadLink) ∈ scanLinks base page) := by
  refine ⟨?_, ?_, ?_, ?_, ?_⟩
  · intro hsel hv hne
    have hmem : (⟨upperStr v,
        base ++ "/b/" ++ bookId ++ "/" ++ lowerStr (upperStr v),
        "Скачать в формате " ++ upperStr v⟩ : DownloadLink)
        ∈ optionLinks base bookId opts := by
      refine List.mem_filterMap.mpr ⟨v, hv, ?_⟩
      simp [hne]
    have hne' : optionLinks base bookId opts ≠ [] := List.ne_nil_of_mem hmem
    unfold detailLinks
    rw [hsel]
    simp [hne']
  · intro h
    unfold inferFormat
    rw [h]
  · intro h1 h2
    unfold inferFormat
    rw [h1, h2]
  · intro h1 h2 k1 k2 k3 k4 k5 k6 k7 k8 k9 k10
    unfold inferFormat
    rw [h1, h2]
    simp [k1, k2, k3, k4, k5, k6, k7, k8, k9, k10]
  · intro hpat ha hmatch
    unfold scanLinks
    refine List.mem_flatten.mpr ⟨_, List.mem_map.mpr ⟨pat, hpat, rfl⟩, ?_⟩
    exact List.mem_map.mpr ⟨a, List.mem_filter.mpr ⟨ha, hmatch⟩, rfl⟩

def c8SelPage : DetailPage := ⟨some ["fb2", "epub"], []⟩

theorem format_inference_priority_witness :
    (upperStr "fb2" ≠ "" ∧ extSuffix "/x/file.fb2" = some "fb2" ∧
      extSuffix "/get/x" = none ∧ extSuffix "t.epub" = some "epub" ∧
      hrefHasLitWord "/get/" "/get/epub" = true) ∧
    detailLinks "https://flibusta.is" "7" c8SelPage
      = some (optionLinks "https://flibusta.is" "7" ["fb2", "epub"]) ∧
    inferFormat "/x/file.fb2" "t" = upperStr "fb2" ∧
    inferFormat "/get/x" "t.epub" = upperStr "epub" ∧
    inferFormat "/get/x" "nothing here" = "UNKNOWN" ∧
    ({ format := inferFormat "/get/epub" (getTextStrip "Download")
       url := urljoin "https://flibusta.is" "/get/epub"
       text := getTextStrip "Download" } : DownloadLink)
      ∈ scanLinks "https://flibusta.is" c8Page := by
  refine ⟨by decide, ?_, ?_, ?_, ?_, ?_⟩
  · exact (format_inference_priority "https://flibusta.is" "7" "" "" ""
      c8SelPage ["fb2", "epub"] "fb2" ⟨"", ""⟩ (fun _ => false)).1
      rfl (by decide) (by decide)
  · exact (format_inference_priority "" "" "/x/file.fb2" "t" "fb2" c8SelPage
      [] "" ⟨"", ""⟩ (fun _ => false)).2.1 (by decide)
  · exact (format_inference_priority "" "" "/get/x" "t.epub" "epub" c8SelPage
      [] "" ⟨"", ""⟩ (fun _ => false)).2.2.1 (by decide) (by decide)
  · exact (format_inference_priority "" "" "/get/x" "nothing here" ""
      c8SelPage [] "" ⟨"", ""⟩ (fun _ => false)).2.2.2.1 (by decide)
      (by decide) (by decide) (by decide) (by decide) (by decide) (by decide)
      (by decide) (by decide) (by decide) (by decide) (by decide)
  · exact (format_inference_priority "https://flibusta.is" "7" "" "" ""
      c8Page [] "" ⟨"/get/epub", "Download"⟩ (hrefHasLitWord "/get/")).2.2.2.2
      (by unfold downloadPatterns
          exact List.mem_cons_of_mem _ (List.mem_cons_self _ _))
      (by decide) (by decide)

end FindBooksBot
